import Mathlib

/-!
# Verification of the batch-execution core of `src/backend/server_enhanced.py`

This file gives a shallow embedding, in Lean 4, of the data model and the
operations of the concurrent batch-execution core of the repository's
backend server, and proves (or refutes) the frozen claims about it.

Conventions of the embedding:
* Python dataclasses / dicts with fixed keys become Lean structures.
* Python dicts used as open key/value records (the per-stage settings)
  become association lists `List (String × SVal)` with Python `dict`
  first-occurrence semantics.
* Lock-protected mutation becomes a pure state-transition function: each
  method of a thread-safe class is a function `State → State` (the lock
  makes each method atomic, so the interleaved behaviour of the program is
  exactly a sequence of such atomic transitions).
* Reference sharing (Python objects are references) is modelled, where a
  claim is about aliasing, by an explicit store of records addressed by
  `Nat`, with lists of addresses standing for Python lists of dict
  references.
* Machine integers are `Nat` / `Int` (no overflow is possible at the sizes
  involved); the single floating-point expression of the modelled core,
  `int(0.6 * cpu_count)` in `calculate_optimal_workers`, is embedded as
  the exact `3 * cpuCount / 5` (natural floor division), which coincides
  with the IEEE-754 double computation for every CPU count up to at least
  100000.
-/

namespace CCStudio

/-- One entry of `BatchState.progress`: the dict
`{'image_index': idx, 'filename': fname, 'status': ..., 'error': ...}`
created in `BatchState.reset` and mutated by `BatchState.update_status`. -/
structure ProgressItem where
  image_index : Nat
  filename : String
  status : String
  error : Option String
deriving Repr, DecidableEq, Inhabited

/-- The result dict returned by `process_single_image_with_timeout`
(`src/backend/server_enhanced.py:465-606`): `success`, `image_index`,
`filename`, and either `corrected_images`/`original_path` (success) or
`error` (failure).  `metrics` is always `{}` in batch mode and is omitted. -/
structure ItemResult where
  success : Bool
  image_index : Nat
  filename : String
  error : Option String
  corrected_images : List (String × String)
  original_path : String
deriving Repr, DecidableEq

/-- The `BatchState` dataclass (`src/backend/server_enhanced.py:94-166`)
minus its re-entrant lock: the lock only serialises the methods, so the
pure model is the record of the remaining fields. -/
structure BatchState where
  batch_id : String := ""
  active : Bool := false
  progress : List ProgressItem := []
  results : List ItemResult := []
  total : Nat := 0
  completed : Nat := 0
  failed : Nat := 0
deriving Repr, DecidableEq

namespace BatchState

/-- `BatchState.reset(batch_id, total, image_indices, filenames)`:
atomically replaces every per-batch field and raises the `active` flag;
the fresh progress entries are `pending` with no error. -/
def reset (s : BatchState) (batch_id : String) (total : Nat)
    (image_indices : List Nat) (filenames : List String) : BatchState :=
  { s with
    batch_id := batch_id
    active := true
    total := total
    completed := 0
    failed := 0
    progress := List.zipWith
      (fun idx fname =>
        { image_index := idx, filename := fname, status := "pending", error := none })
      image_indices filenames
    results := [] }

/-- Python truthiness of the `error` argument in
`if error: p['error'] = error`: `None` and the empty string are falsy, so
only a non-empty message replaces the stored error. -/
def mergeError (old : Option String) (err : Option String) : Option String :=
  match err with
  | some e => if e = "" then old else some e
  | none => old

/-- The loop body of `BatchState.update_status`: walk `self.progress`,
mutate the first entry whose `image_index` matches, then `break`. -/
def updateProgress (ps : List ProgressItem) (idx : Nat) (status : String)
    (err : Option String) : List ProgressItem :=
  match ps with
  | [] => []
  | p :: rest =>
    if p.image_index = idx then
      { p with status := status, error := mergeError p.error err } :: rest
    else
      p :: updateProgress rest idx status err

/-- `BatchState.update_status(image_index, status, error)`
(`src/backend/server_enhanced.py:125-138`).  Note that the counter
increments sit after (outside) the search loop in the source: they fire on
the `status` argument alone, whether or not any entry matched. -/
def update_status (s : BatchState) (idx : Nat) (status : String)
    (err : Option String := none) : BatchState :=
  { s with
    progress := updateProgress s.progress idx status err
    completed := if status = "completed" then s.completed + 1 else s.completed
    failed := if status = "failed" then s.failed + 1 else s.failed }

/-- `BatchState.add_result(result)`: append under the lock. -/
def add_result (s : BatchState) (r : ItemResult) : BatchState :=
  { s with results := s.results ++ [r] }

/-- `BatchState.is_active()`. -/
def is_active (s : BatchState) : Bool :=
  s.active

/-- `BatchState.mark_complete()`: lower the `active` flag. -/
def mark_complete (s : BatchState) : BatchState :=
  { s with active := false }

/-- First entry of `progress` with the given `image_index` — the entry the
`update_status` loop would mutate. -/
def findFirst (ps : List ProgressItem) (idx : Nat) : Option ProgressItem :=
  match ps with
  | [] => none
  | p :: rest => if p.image_index = idx then some p else findFirst rest idx

/-- Status of the item with index `idx` as a poller would read it. -/
def statusOf (s : BatchState) (idx : Nat) : Option String :=
  (findFirst s.progress idx).map (·.status)

/-- Recorded error of the item with index `idx`. -/
def errorOf (s : BatchState) (idx : Nat) : Option (Option String) :=
  (findFirst s.progress idx).map (·.error)

end BatchState

/-- `calculate_optimal_workers(num_images, has_gpu)`
(`src/backend/server_enhanced.py:421-441`), with the ambient
`multiprocessing.cpu_count()` passed explicitly.  The GPU path returns
`min(2, num_images)`; the CPU path returns `max(1, int(0.6 * cpu_count))`
capped at `num_images` (see the header note on the float embedding). -/
def calculate_optimal_workers (num_images : Nat) (has_gpu : Bool)
    (cpu_count : Nat) : Nat :=
  if has_gpu then
    min 2 num_images
  else
    min (max 1 (3 * cpu_count / 5)) num_images

/-- The worker-count computation at the bulk-batch call site
(`run_color_correction_parallel`, `src/backend/server_enhanced.py:1401-1412`):
a user override is clamped by `max(1, min(int(user), 16, n))`; otherwise
the auto policy runs. -/
def bulk_worker_count (user : Option Int) (n : Nat) (has_gpu : Bool)
    (cpu_count : Nat) : Nat :=
  match user with
  | some u => (max 1 (min u (min 16 (n : Int)))).toNat
  | none => calculate_optimal_workers n has_gpu cpu_count

/-- The worker-count computation at the inference-only call site
(`apply_color_correction`, `src/backend/server_enhanced.py:1784-1796`):
a user override is clamped by `max(1, min(int(user), 8, n))`; the auto
path further caps the general policy at `min(2, ·, n)` because the items
share one model instance. -/
def apply_worker_count (user : Option Int) (n : Nat) (has_gpu : Bool)
    (cpu_count : Nat) : Nat :=
  match user with
  | some u => (max 1 (min u (min 8 (n : Int)))).toNat
  | none => min 2 (min (calculate_optimal_workers n has_gpu cpu_count) n)

/-! ## The session registry (`ThreadSafeSession`) -/

/-- A JSON-like scalar value stored in a per-stage settings record.
Numeric literals of the source are carried exactly: Python ints as `Int`,
Python floats as the rational value of the literal (the values are opaque
payloads to the modelled core — only equality matters). -/
inductive SVal where
  | b (x : Bool)
  | n (x : Int)
  | q (x : ℚ)
  | s (x : String)
  | ints (x : List Int)
deriving Repr, DecidableEq

/-- An open key/value record (a Python `dict` used as a settings record). -/
abbrev SDict := List (String × SVal)

/-- `d[k] = v` on a Python dict: replace the value at the (first)
occurrence of the key, else append the new binding. -/
def SDict.setKey (d : SDict) (k : String) (v : SVal) : SDict :=
  match d with
  | [] => [(k, v)]
  | (k₀, v₀) :: rest =>
    if k₀ = k then (k₀, v) :: rest else (k₀, v₀) :: SDict.setKey rest k v

/-- `d.update(u)` on Python dicts: fold every binding of `u` into `d`. -/
def SDict.dictUpdate (d u : SDict) : SDict :=
  u.foldl (fun acc kv => SDict.setKey acc kv.1 kv.2) d

/-- `d.get(k)` / `d[k]` on a Python dict: value at the first occurrence
of the key. -/
def SDict.lookupKey : SDict → String → Option SVal
  | [], _ => none
  | (k₀, v) :: rest, k => if k₀ = k then some v else SDict.lookupKey rest k

/-- The per-stage settings mapping `{'ffc': ..., 'gc': ..., 'wb': ..., 'cc': ...}`. -/
structure Settings where
  ffc : SDict
  gc : SDict
  wb : SDict
  cc : SDict
deriving Repr, DecidableEq

/-- Read the record of one stage by its name. -/
def Settings.getStep (st : Settings) (step : String) : SDict :=
  if step = "ffc" then st.ffc
  else if step = "gc" then st.gc
  else if step = "wb" then st.wb
  else st.cc

/-- `current_settings[step].update(data['settings'])`: merge a partial
update into the named stage's record, leaving the other stages alone. -/
def Settings.updateStep (st : Settings) (step : String) (upd : SDict) : Settings :=
  if step = "ffc" then { st with ffc := st.ffc.dictUpdate upd }
  else if step = "gc" then { st with gc := st.gc.dictUpdate upd }
  else if step = "wb" then { st with wb := st.wb.dictUpdate upd }
  else { st with cc := st.cc.dictUpdate upd }

/-- One uploaded image descriptor `{'filename', 'path', 'preview'}`
(appended by the upload endpoint, `src/backend/server_enhanced.py:705-712`). -/
structure ImageRec where
  filename : String
  path : String
  preview : String
deriving Repr, DecidableEq

/-- The `_data` dict of `ThreadSafeSession`
(`src/backend/server_enhanced.py:172-283`) minus its lock.  The trained
correction model (`cc_instance`) and the stored metrics / detection /
corrected-image payloads are opaque to the modelled core; each is carried
as an optional abstract handle. -/
structure SessionData where
  images : List ImageRec
  white_image : Option ImageRec
  ccm_file : Option String
  settings : Settings
  cc_instance : Option Nat
  corrected_images : List (String × String)
  chart_detection : Option Nat
  last_metrics : Option Nat
  batch_processed_images : List ItemResult
  is_batch_mode : Bool
deriving Repr, DecidableEq

/-- The default per-stage settings built in `ThreadSafeSession.__init__`
(`src/backend/server_enhanced.py:180-226`). -/
def defaultSettings : Settings :=
  { ffc := [("manual_crop", .b false), ("bins", .n 50), ("smooth_window", .n 5),
      ("degree", .n 3), ("fit_method", .s "pls"), ("interactions", .b true),
      ("max_iter", .n 1000), ("tol", .q (1 / 100000000)), ("verbose", .b false),
      ("random_seed", .n 0), ("get_deltaE", .b true)]
    gc := [("max_degree", .n 5), ("show", .b false), ("get_deltaE", .b true)]
    wb := [("show", .b false), ("get_deltaE", .b true)]
    cc := [("cc_method", .s "ours"), ("method", .s "Finlayson 2015"),
      ("mtd", .s "pls"), ("degree", .n 2), ("max_iterations", .n 10000),
      ("random_state", .n 0), ("tol", .q (1 / 100000000)), ("verbose", .b false),
      ("param_search", .b false), ("show", .b false), ("get_deltaE", .b true),
      ("n_samples", .n 50), ("ncomp", .n 1), ("nlayers", .n 100),
      ("hidden_layers", .ints [64, 32, 16]), ("learning_rate", .q (1 / 1000)),
      ("batch_size", .n 16), ("patience", .n 10), ("dropout_rate", .q (1 / 5)),
      ("optim_type", .s "adam"), ("use_batch_norm", .b true)] }

/-- The initial `_data` of `ThreadSafeSession.__init__`. -/
def initialSessionData : SessionData :=
  { images := []
    white_image := none
    ccm_file := none
    settings := defaultSettings
    cc_instance := none
    corrected_images := []
    chart_detection := none
    last_metrics := none
    batch_processed_images := []
    is_batch_mode := false }

/-- `ThreadSafeSession.reset` (`src/backend/server_enhanced.py:273-283`):
the source reassigns exactly the eight keys listed there — `settings` and
`cc_instance` are not among them and keep their current values. -/
def SessionData.reset (s : SessionData) : SessionData :=
  { s with
    images := []
    white_image := none
    ccm_file := none
    corrected_images := []
    chart_detection := none
    last_metrics := none
    batch_processed_images := []
    is_batch_mode := false }

/-! ## The HTTP handlers over the shared state -/

/-- The process-wide mutable state the modelled handlers touch: the global
`parallel_batch_state` and `session_data` singletons. -/
structure ServerState where
  batch : BatchState
  session : SessionData
deriving Repr, DecidableEq

/-- `/api/clear-session` (`src/backend/server_enhanced.py:1572-1587`):
calls `session_data.reset()` and reports success. -/
def clear_session (st : ServerState) : Bool × ServerState :=
  (true, { st with session := st.session.reset })

/-- Response of the settings endpoint, `handle_settings`. -/
inductive SettingsResponse where
  | invalidStep (step : String)
  | missingBody
  | ok (settings : SDict)
deriving Repr, DecidableEq

/-- POST `/api/settings/<step>` (`src/backend/server_enhanced.py:625-661`):
validate the stage name, then merge the request's partial record into
that stage's current record (`current_settings[step].update(...)`) and
store the result back.  `body = none` models a request without a
`settings` key. -/
def handle_settings_post (st : ServerState) (step : String)
    (body : Option SDict) : SettingsResponse × ServerState :=
  if step ∉ ["ffc", "gc", "wb", "cc"] then (.invalidStep step, st)
  else
    match body with
    | none => (.missingBody, st)
    | some upd =>
      let newSettings := st.session.settings.updateStep step upd
      (.ok (newSettings.getStep step),
        { st with session := { st.session with settings := newSettings } })

/-- `validate_image_index(index, total)`
(`src/backend/server_enhanced.py:293-299`), on an already-integral JSON
index: in range `[0, total)`. -/
def validate_image_index (index : Int) (total : Nat) : Bool :=
  decide (0 ≤ index) && decide (index < (total : Int))

/-- `validate_method` (`src/backend/server_enhanced.py:301-306`). -/
def valid_methods : List String :=
  ["pls", "nn", "linear", "svm", "conventional"]

/-- The request body of `/api/run-cc-parallel` (the fields the modelled
prefix of the handler reads). -/
structure SubmitRequest where
  image_indices : List Int
  method : String := "pls"
  max_workers : Option Int := none
deriving Repr, DecidableEq

/-- The response of `/api/run-cc-parallel`, by HTTP status:
`conflict` is the 409 admission rejection carrying the in-progress batch's
id, `accepted` is the 202 carrying the new batch id, the total and the
worker count. -/
inductive SubmitResponse where
  | unavailable
  | conflict (batch_id : String)
  | noImages
  | noValidImages
  | invalidMethod (m : String)
  | accepted (batch_id : String) (total workers : Nat)
deriving Repr, DecidableEq

/-- The admission/validation/reservation prefix of
`run_color_correction_parallel` (`src/backend/server_enhanced.py:1344-1545`),
up to and including the atomic `BatchState.reset` and the
`is_batch_mode := true` flag; the spawned background fan-out is modelled
separately (`fanIn`).  Ambient inputs (`CC_AVAILABLE`, the GPU probe, the
CPU count, the generated batch id) are passed explicitly. -/
def run_color_correction_parallel (ccAvailable : Bool) (has_gpu : Bool)
    (cpu_count : Nat) (newId : String) (st : ServerState)
    (req : SubmitRequest) : SubmitResponse × ServerState :=
  if ¬ccAvailable then (.unavailable, st)
  else if st.batch.is_active then (.conflict st.batch.batch_id, st)
  else
    let images_list := st.session.images
    if images_list.isEmpty then (.noImages, st)
    else
      let validated := (req.image_indices.filter
        (fun i => validate_image_index i images_list.length)).map Int.toNat
      if validated.isEmpty then (.noValidImages, st)
      else if req.method ∉ valid_methods then (.invalidMethod req.method, st)
      else
        let workers := bulk_worker_count req.max_workers validated.length
          has_gpu cpu_count
        let filenames := validated.map
          (fun i => ((images_list.get? i).map (·.filename)).getD "")
        let batch' := st.batch.reset newId validated.length validated filenames
        (.accepted newId validated.length workers,
          { batch := batch'
            session := { st.session with is_batch_mode := true } })

/-! ## The per-item execution envelope and the background fan-in -/

/-- `REQUEST_TIMEOUT = int(os.getenv('REQUEST_TIMEOUT', '300'))`
(`src/backend/server_enhanced.py:87`). -/
def defaultRequestTimeout : Nat := 300

/-- The externally observable behaviour of one item's work inside
`process_single_image_with_timeout` — which of the function's exception
sites fires, or the pipeline's returned outputs.  The image decoding and
the pipeline call are external collaborators; this type is the shallow
interface to them. -/
inductive PipelineBehavior where
  | loadFails
  | pipelineRaises (msg : String)
  | returns (images : List (String × String))
deriving Repr, DecidableEq

/-- The item-level failure message produced when `cv2.imread` returns
`None`: `load_image` raises `ValueError(f"Failed to load image: {path}")`,
caught by the outer handler which prefixes `f"Error processing {fname}: "`. -/
def loadErrorMsg (fname path : String) : String :=
  "Error processing " ++ fname ++ ": Failed to load image: " ++ path

/-- The item-level failure message for an exception from `cc.run(...)`:
`f"Pipeline error: {str(pipeline_error)}"`. -/
def pipelineErrorMsg (msg : String) : String :=
  "Pipeline error: " ++ msg

/-- The fan-in loop's failure message when `future.result(timeout=...)`
raises `FutureTimeoutError`:
`f"Processing timeout after {REQUEST_TIMEOUT}s"`
(`src/backend/server_enhanced.py:1502-1505`). -/
def timeoutErrorMsg (t : Nat) : String :=
  "Processing timeout after " ++ toString t ++ "s"

/-- `process_single_image_with_timeout` (`src/backend/server_enhanced.py:465-606`)
as a function of the item's external behaviour: a load failure and a
pipeline exception are converted into structured `failed` results with
the corresponding messages; on success the encoded stage outputs are
returned with empty metrics and no error.  The `timeout` parameter
mirrors the source signature (line 471): it is accepted with default
`REQUEST_TIMEOUT` and never read — nothing in the function's body bounds
or interrupts the pipeline call. -/
def process_single_image_with_timeout (idx : Nat) (path fname : String)
    (b : PipelineBehavior) (timeout : Nat := defaultRequestTimeout) :
    ItemResult :=
  match b with
  | .loadFails =>
    { success := false, image_index := idx, filename := fname,
      error := some (loadErrorMsg fname path), corrected_images := [],
      original_path := path }
  | .pipelineRaises m =>
    { success := false, image_index := idx, filename := fname,
      error := some (pipelineErrorMsg m), corrected_images := [],
      original_path := path }
  | .returns imgs =>
    { success := true, image_index := idx, filename := fname,
      error := none, corrected_images := imgs, original_path := path }

/-- What `future.result(timeout=REQUEST_TIMEOUT)` yields for one item in
the fan-in loop: the worker's returned result dict, a
`FutureTimeoutError` — the branch the loop's text handles at lines
1502-1505, though unreachable there (see `FutureOutcome.realizable`) —
or another exception escaping the future. -/
inductive FutureOutcome where
  | ok (r : ItemResult)
  | timeout
  | exn (msg : String)
deriving Repr, DecidableEq

/-- Which outcomes `future.result(timeout=REQUEST_TIMEOUT)` (line 1484)
can actually produce: it is called only on futures yielded by
`as_completed(futures)` with no timeout argument (line 1481), which
blocks until a future completes and yields only completed futures, so
`result` returns the worker's dict or re-raises the worker's exception
immediately — `FutureTimeoutError` cannot occur, and its `except` branch
is dead code. -/
def FutureOutcome.realizable (o : FutureOutcome) : Prop :=
  o ≠ FutureOutcome.timeout

instance : DecidablePred FutureOutcome.realizable :=
  fun o => decidable_of_iff (o ≠ FutureOutcome.timeout) Iff.rfl

/-- The mutable state the background fan-in loop touches: the batch state
and the session's `batch_processed_images` list. -/
structure OrchState where
  batch : BatchState
  batch_processed_images : List ItemResult
deriving Repr, DecidableEq

/-- One iteration of the `as_completed` loop in `process_batch_background`
(`src/backend/server_enhanced.py:1481-1509`): a successful result marks
the item `completed`, appends it to `results` and to the session's
processed list; a failed result marks it `failed` with the result's
error; a `FutureTimeoutError` marks it `failed` with the distinct timeout
message; any other exception marks it `failed` with that exception's
text. -/
def handleCompletion (t : Nat) (st : OrchState) (c : Nat × FutureOutcome) :
    OrchState :=
  match c.2 with
  | .ok r =>
    if r.success then
      { batch := (st.batch.update_status c.1 "completed" none).add_result r
        batch_processed_images := st.batch_processed_images ++ [r] }
    else
      { st with
        batch := st.batch.update_status c.1 "failed" (some (r.error.getD "Unknown error")) }
  | .timeout =>
    { st with
      batch := st.batch.update_status c.1 "failed" (some (timeoutErrorMsg t)) }
  | .exn m =>
    { st with batch := st.batch.update_status c.1 "failed" (some m) }

/-- The whole fan-in loop, fed the items' outcomes in completion order. -/
def fanIn (t : Nat) (st : OrchState) (cs : List (Nat × FutureOutcome)) :
    OrchState :=
  cs.foldl (handleCompletion t) st

/-! ## The shutdown protocol -/

/-- The external resources and shutdown-relevant observables: the contents
of the three cleaned folders, how many times `cleanup_upload_folder` has
executed, and whether the process has exited. -/
structure ShutdownWorld where
  uploads : List String
  results : List String
  models : List String
  cleanupRuns : Nat
  exited : Bool
deriving Repr, DecidableEq

/-- `cleanup_upload_folder` (`src/backend/server_enhanced.py:343-365`):
removes every entry of the upload, results and models folders (keeping
the folders themselves); `cleanupRuns` counts its executions. -/
def cleanup_upload_folder (w : ShutdownWorld) : ShutdownWorld :=
  { w with
    uploads := []
    results := []
    models := []
    cleanupRuns := w.cleanupRuns + 1 }

/-- `signal_handler` (`src/backend/server_enhanced.py:2329-2373`): after
the bounded wait for an active batch it unconditionally runs
`cleanup_upload_folder()` and then `os._exit(0)` (which skips `atexit`
handlers).  The bounded wait mutates nothing, so the model is the cleanup
followed by the exit. -/
def signal_handler (w : ShutdownWorld) : ShutdownWorld :=
  { cleanup_upload_folder w with exited := true }

/-- The API path `/api/shutdown` (`shutdown_server`,
`src/backend/server_enhanced.py:1589-1654`) to completion: after its own
bounded wait it runs `cleanup_upload_folder()` directly, then the
background `do_shutdown` thread sends `SIGINT` to the process, whose
handler is `signal_handler`.  The model composes the two in their causal
order. -/
def shutdown_server_sequence (w : ShutdownWorld) : ShutdownWorld :=
  signal_handler (cleanup_upload_folder w)

/-! ## Reference sharing in `BatchState.get_status` (heap model)

`get_status` builds its snapshot with `self.progress.copy()` — a new
*list* object whose elements are the very same per-item dicts the batch
state mutates.  To reason about that aliasing we model the per-item dicts
as records in an explicit store, addressed by `Nat`, and the progress
list (and the snapshot's list) as lists of addresses. -/

/-- The store of all allocated progress-item records; an address is an
index into the list. -/
abbrev ItemStore := List ProgressItem

/-- `BatchState` in the heap model: `progress` holds references. -/
structure HBatchState where
  store : ItemStore
  batch_id : String
  active : Bool
  progressRefs : List Nat
  resultsLen : Nat
  total : Nat
  completed : Nat
  failed : Nat
deriving Repr, DecidableEq

/-- The snapshot dict returned by `get_status`
(`src/backend/server_enhanced.py:155-166`): scalar fields by value,
`'progress': self.progress.copy()` as a copied list of the same
references, `'has_results': len(self.results) > 0`. -/
structure HSnapshot where
  batch_id : String
  active : Bool
  total : Nat
  completed : Nat
  failed : Nat
  progressRefs : List Nat
  has_results : Bool
deriving Repr, DecidableEq

/-- `BatchState.get_status()` in the heap model. -/
def HBatchState.get_status (b : HBatchState) : HSnapshot :=
  { batch_id := b.batch_id, active := b.active, total := b.total,
    completed := b.completed, failed := b.failed,
    progressRefs := b.progressRefs,
    has_results := decide (0 < b.resultsLen) }

/-- Dereference one record address in the store. -/
def readRef (store : ItemStore) (a : Nat) : ProgressItem :=
  store.getD a default

/-- Address of the first progress reference whose record matches `idx` —
the record `update_status` mutates in place. -/
def findFirstRef (store : ItemStore) (refs : List Nat) (idx : Nat) :
    Option Nat :=
  match refs with
  | [] => none
  | a :: rest =>
    if (readRef store a).image_index = idx then some a
    else findFirstRef store rest idx

/-- The store mutation performed by `update_status` in the heap model:
overwrite, in place, the first record referenced by `refs` whose
`image_index` matches. -/
def storeAfterUpdate (store : ItemStore) (refs : List Nat) (idx : Nat)
    (status : String) (err : Option String) : ItemStore :=
  match findFirstRef store refs idx with
  | none => store
  | some a =>
    store.set a
      { readRef store a with
        status := status
        error := BatchState.mergeError (readRef store a).error err }

/-- `BatchState.update_status` in the heap model: mutate, in the store,
the first record referenced by `progress` whose `image_index` matches;
the counters change exactly as in the flat model. -/
def HBatchState.update_status (b : HBatchState) (idx : Nat) (status : String)
    (err : Option String := none) : HBatchState :=
  { b with
    store := storeAfterUpdate b.store b.progressRefs idx status err
    completed := if status = "completed" then b.completed + 1 else b.completed
    failed := if status = "failed" then b.failed + 1 else b.failed }

/-- `BatchState.reset` in the heap model: the fresh progress dicts are
newly allocated records appended to the store; `progress` is rebound to
their addresses (the old records stay in the store — Python keeps them
alive through any outstanding snapshot). -/
def HBatchState.reset (b : HBatchState) (batch_id : String) (total : Nat)
    (image_indices : List Nat) (filenames : List String) : HBatchState :=
  let fresh := List.zipWith
    (fun idx fname =>
      { image_index := idx, filename := fname, status := "pending",
        error := none : ProgressItem })
    image_indices filenames
  { b with
    store := b.store ++ fresh
    batch_id := batch_id
    active := true
    total := total
    completed := 0
    failed := 0
    progressRefs := (List.range fresh.length).map (· + b.store.length)
    resultsLen := 0 }

/-- Reading a snapshot's progress list through the current store — what a
caller serialising the snapshot would see. -/
def readSnapshot (store : ItemStore) (snap : HSnapshot) : List ProgressItem :=
  snap.progressRefs.map (readRef store)

/-- Well-formedness of the heap state: the progress references are
distinct and in range (they are, for every state the program builds:
`reset` allocates fresh distinct records). -/
def HBatchState.WF (b : HBatchState) : Prop :=
  b.progressRefs.Nodup ∧ ∀ a ∈ b.progressRefs, a < b.store.length

/-! ## Orchestrator-reachable batch states

The operations `run_color_correction_parallel` and its background thread
perform on the global batch state of one admitted batch, in order
(`src/backend/server_enhanced.py:1451-1523`): one `reset` with the
validated indices (here taken distinct — one work item per image index,
the discipline the claims describe); a `queued` update per item while its
status is still `pending`; at most one terminal (`completed`/`failed`)
update per item, from the fan-in loop; `add_result` on success; and
`mark_complete` in the `finally` teardown, after which no thread touches
the state again. -/

/-- Number of progress entries carrying the given status. -/
def countStatus (ps : List ProgressItem) (status : String) : Nat :=
  (ps.filter (fun p => p.status = status)).length

/-- Every item of the batch has resolved (reached a terminal status). -/
def BatchState.allTerminal (s : BatchState) : Prop :=
  ∀ p ∈ s.progress, p.status = "completed" ∨ p.status = "failed"

/-- The batch states the orchestrator can exhibit between the admission
`reset` and the teardown `mark_complete` (exclusive). -/
inductive MidRun : BatchState → Prop where
  | start (s₀ : BatchState) (bid : String) (idxs : List Nat)
      (fns : List String) (hnd : idxs.Nodup) (hlen : idxs.length = fns.length) :
      MidRun (s₀.reset bid idxs.length idxs fns)
  | queued (s : BatchState) (idx : Nat) (h : MidRun s)
      (hst : s.statusOf idx = some "pending") :
      MidRun (s.update_status idx "queued" none)
  | terminal (s : BatchState) (idx : Nat) (stt : String) (err : Option String)
      (h : MidRun s) (hterm : stt = "completed" ∨ stt = "failed")
      (hfresh : ∃ p, BatchState.findFirst s.progress idx = some p ∧
        p.status ≠ "completed" ∧ p.status ≠ "failed") :
      MidRun (s.update_status idx stt err)
  | addRes (s : BatchState) (r : ItemResult) (h : MidRun s) :
      MidRun (s.add_result r)

/-- All batch states reachable by the orchestrator's operations on one
admitted batch: the mid-run states plus the state after the guaranteed
`mark_complete` teardown. -/
def ReachableOrch (s : BatchState) : Prop :=
  MidRun s ∨ ∃ t, MidRun t ∧ s = t.mark_complete

/-- The data invariant the orchestrator discipline maintains between
admission and teardown: `total` is the number of progress entries, item
indices are distinct, and the two counters count exactly the entries in
the matching terminal status. -/
def OrchInv (s : BatchState) : Prop :=
  s.total = s.progress.length ∧
  (s.progress.map (·.image_index)).Nodup ∧
  s.completed = countStatus s.progress "completed" ∧
  s.failed = countStatus s.progress "failed" ∧
  s.active = true

/-! ## Concrete example states used by counterexamples and witnesses -/

/-- A one-item batch admitted with index `0`, the item queued and then
resolved `completed`, the teardown `mark_complete` not yet run — the state
the orchestrator passes through right after the last item of a batch
resolves. -/
def exMidState : BatchState :=
  ((({} : BatchState).reset "batch_cex" 1 [0] ["img0.png"]).update_status
    0 "queued" none).update_status 0 "completed" none

/-- A heap-model batch with one progress record, still `pending`. -/
def exHeapBatch : HBatchState :=
  { store := [{ image_index := 0
                filename := "img0.png"
                status := "pending"
                error := none }]
    batch_id := "batch_h"
    active := true
    progressRefs := [0]
    resultsLen := 0
    total := 1
    completed := 0
    failed := 0 }

/-- A session holding one uploaded image, modified `cc` settings and a
trained model handle — the situation right after a successful training
run. -/
def exTrainedSession : SessionData :=
  { initialSessionData with
    images := [{ filename := "a.png", path := "uploads/a.png", preview := "p" }]
    settings := initialSessionData.settings.updateStep "cc" [("degree", .n 9)]
    cc_instance := some 7 }

/-- Server state wrapping `exTrainedSession`, no batch in flight. -/
def exTrainedState : ServerState :=
  { batch := {}, session := exTrainedSession }

/-- Server state with a batch in flight (admission flag raised). -/
def exActiveState : ServerState :=
  { batch := ({} : BatchState).reset "batch_busy" 1 [0] ["a.png"]
    session := exTrainedSession }

/-- A world with files present in all three managed folders and no
shutdown activity yet. -/
def exWorld : ShutdownWorld :=
  { uploads := ["u1.png", "u2.png"]
    results := ["r1.jpg"]
    models := ["m1.pkl"]
    cleanupRuns := 0
    exited := false }

/-- A two-item batch right after both items were submitted and marked
`queued` — the state of the batch when the fan-in loop starts. -/
def exQueuedBatch : BatchState :=
  ((({} : BatchState).reset "batch_q" 2 [0, 1] ["a.png", "b.png"]).update_status
    0 "queued" none).update_status 1 "queued" none

/-- Fan-in orchestration state over `exQueuedBatch`. -/
def exOrchState : OrchState :=
  { batch := exQueuedBatch, batch_processed_images := [] }

/-- A successful item result for index `1`. -/
def exOkResult : ItemResult :=
  { success := true, image_index := 1, filename := "b.png", error := none,
    corrected_images := [("b_CC", "data:image/jpeg;base64,xyz")],
    original_path := "uploads/b.png" }

/-! ## Lemmas about the `update_status` search loop -/

namespace BatchState

theorem findFirst_eq_none (ps : List ProgressItem) (idx : Nat) :
    findFirst ps idx = none ↔ ∀ p ∈ ps, p.image_index ≠ idx := by
  induction ps with
  | nil => simp [findFirst]
  | cons p rest ih =>
    by_cases hp : p.image_index = idx <;> simp [findFirst, hp, ih]

theorem updateProgress_eq_self (ps : List ProgressItem) (idx : Nat)
    (stt : String) (err : Option String) (h : findFirst ps idx = none) :
    updateProgress ps idx stt err = ps := by
  induction ps with
  | nil => rfl
  | cons p rest ih =>
    by_cases hp : p.image_index = idx
    · simp [findFirst, hp] at h
    · simp only [findFirst, hp, if_false, if_neg hp] at h
      simp [updateProgress, hp, ih h]

theorem findFirst_updateProgress_ne (ps : List ProgressItem)
    (idx j : Nat) (stt : String) (err : Option String) (hne : j ≠ idx) :
    findFirst (updateProgress ps idx stt err) j = findFirst ps j := by
  induction ps with
  | nil => rfl
  | cons p rest ih =>
    have h1 : ¬(idx = j) := fun h => hne h.symm
    by_cases hp : p.image_index = idx
    · simp [updateProgress, findFirst, hp, h1]
    · by_cases hq : p.image_index = j
      · simp [updateProgress, findFirst, hp, hq, hne]
      · simp [updateProgress, findFirst, hp, hq, ih]

theorem findFirst_updateProgress_self (ps : List ProgressItem)
    (idx : Nat) (stt : String) (err : Option String) :
    findFirst (updateProgress ps idx stt err) idx =
      (findFirst ps idx).map
        (fun p => { p with status := stt, error := mergeError p.error err }) := by
  induction ps with
  | nil => rfl
  | cons p rest ih =>
    by_cases hp : p.image_index = idx <;>
      simp [updateProgress, findFirst, hp, ih]

theorem map_image_index_updateProgress (ps : List ProgressItem)
    (idx : Nat) (stt : String) (err : Option String) :
    (updateProgress ps idx stt err).map (·.image_index) =
      ps.map (·.image_index) := by
  induction ps with
  | nil => rfl
  | cons p rest ih =>
    by_cases hp : p.image_index = idx <;>
      simp [updateProgress, hp, ih]

theorem length_updateProgress (ps : List ProgressItem)
    (idx : Nat) (stt : String) (err : Option String) :
    (updateProgress ps idx stt err).length = ps.length := by
  have h := map_image_index_updateProgress ps idx stt err
  have := congrArg List.length h
  simpa using this

end BatchState

theorem countStatus_cons (p : ProgressItem) (rest : List ProgressItem)
    (X : String) :
    countStatus (p :: rest) X =
      countStatus rest X + (if p.status = X then 1 else 0) := by
  by_cases h : p.status = X <;>
    simp [countStatus, List.filter_cons, h, Nat.add_comm]

theorem countStatus_updateProgress_some (ps : List ProgressItem)
    (idx : Nat) (stt : String) (err : Option String) (p : ProgressItem)
    (h : BatchState.findFirst ps idx = some p) (X : String) :
    countStatus (BatchState.updateProgress ps idx stt err) X +
        (if p.status = X then 1 else 0) =
      countStatus ps X + (if stt = X then 1 else 0) := by
  induction ps with
  | nil => simp [BatchState.findFirst] at h
  | cons q rest ih =>
    by_cases hq : q.image_index = idx
    · have hqp : q = p := by
        simpa [BatchState.findFirst, hq] using h
      subst hqp
      simp only [BatchState.updateProgress, if_pos hq]
      rw [countStatus_cons, countStatus_cons]
      dsimp only
      omega
    · have h' : BatchState.findFirst rest idx = some p := by
        simpa [BatchState.findFirst, hq] using h
      simp only [BatchState.updateProgress, if_neg hq]
      rw [countStatus_cons, countStatus_cons]
      have hrec := ih h'
      omega

/-- **C2, counterexample.**  On the empty batch state no progress entry
matches index `5`, yet `update_status(5, 'completed')` increments the
`completed` counter — the call is not a no-op on an unknown index. -/
theorem update_status_unknown_index_not_noop :
    BatchState.findFirst ({} : BatchState).progress 5 = none ∧
    ({} : BatchState).completed = 0 ∧
    (({} : BatchState).update_status 5 "completed" none).completed = 1 := by
  refine ⟨rfl, rfl, rfl⟩

/-- **C2, amended.**  `update_status` with an index matching no progress
entry leaves the progress list unchanged, but the counters still move:
`completed` (resp. `failed`) is incremented on *every* call whose status
argument is `'completed'` (resp. `'failed'`), regardless of whether any
entry matched — the increments sit outside the search loop in the
source. -/
theorem update_status_unknown_index_amended (s : BatchState) (idx : Nat)
    (status : String) (err : Option String)
    (h : BatchState.findFirst s.progress idx = none) :
    ((s.update_status idx status err).progress = s.progress) ∧
    ((s.update_status idx status err).completed =
      s.completed + (if status = "completed" then 1 else 0)) ∧
    ((s.update_status idx status err).failed =
      s.failed + (if status = "failed" then 1 else 0)) := by
  refine ⟨BatchState.updateProgress_eq_self _ _ _ _ h, ?_, ?_⟩ <;>
    by_cases hc : status = "completed" <;>
    by_cases hf : status = "failed" <;>
    simp [BatchState.update_status, hc, hf]

/-- **C2, witness** for `update_status_unknown_index_amended`. -/
theorem update_status_unknown_index_amended_witness :
    (({} : BatchState).update_status 5 "completed" none).progress =
        ({} : BatchState).progress ∧
    (({} : BatchState).update_status 5 "completed" none).completed =
        ({} : BatchState).completed + 1 ∧
    (({} : BatchState).update_status 5 "completed" none).failed =
        ({} : BatchState).failed + 0 := by
  have h := update_status_unknown_index_amended ({} : BatchState) 5
    "completed" none rfl
  simpa using h

/-! ## The orchestrator counter invariant (C3) -/

theorem countStatus_zipWith_pending (idxs : List Nat) (fns : List String)
    (X : String) (hX : X ≠ "pending") :
    countStatus
      (List.zipWith
        (fun idx fname =>
          { image_index := idx, filename := fname, status := "pending",
            error := none : ProgressItem })
        idxs fns) X = 0 := by
  induction idxs generalizing fns with
  | nil => simp [countStatus]
  | cons i is ih =>
    cases fns with
    | nil => simp [countStatus]
    | cons f fs =>
      rw [List.zipWith_cons_cons, countStatus_cons, ih fs]
      simp [Ne.symm hX]

theorem map_image_index_zipWith (idxs : List Nat) (fns : List String)
    (hlen : idxs.length = fns.length) :
    (List.zipWith
      (fun idx fname =>
        { image_index := idx, filename := fname, status := "pending",
          error := none : ProgressItem })
      idxs fns).map (·.image_index) = idxs := by
  induction idxs generalizing fns with
  | nil => simp
  | cons i is ih =>
    cases fns with
    | nil => simp at hlen
    | cons f fs =>
      simp only [List.length_cons, Nat.succ.injEq] at hlen
      simp [ih fs hlen]

theorem midRun_inv {s : BatchState} (h : MidRun s) : OrchInv s := by
  induction h with
  | start s₀ bid idxs fns hnd hlen =>
    refine ⟨?_, ?_, ?_, ?_, rfl⟩
    · simp [BatchState.reset, hlen]
    · simpa [BatchState.reset, map_image_index_zipWith idxs fns hlen] using hnd
    · simp [BatchState.reset, countStatus_zipWith_pending idxs fns]
    · simp [BatchState.reset, countStatus_zipWith_pending idxs fns]
  | queued s idx h hst ih =>
    obtain ⟨htot, hnd, hc, hf, hact⟩ := ih
    obtain ⟨p, hp, hpst⟩ : ∃ p, BatchState.findFirst s.progress idx = some p ∧
        p.status = "pending" := by
      unfold BatchState.statusOf at hst
      cases hfp : BatchState.findFirst s.progress idx with
      | none => rw [hfp] at hst; simp at hst
      | some p => rw [hfp] at hst; simp at hst; exact ⟨p, rfl, hst⟩
    have hcC := countStatus_updateProgress_some s.progress idx "queued" none
      p hp "completed"
    have hcF := countStatus_updateProgress_some s.progress idx "queued" none
      p hp "failed"
    rw [hpst] at hcC hcF
    simp only [BatchState.update_status]
    refine ⟨?_, ?_, ?_, ?_, hact⟩
    · simp [BatchState.length_updateProgress, htot]
    · simpa [BatchState.map_image_index_updateProgress] using hnd
    · simp at hcC ⊢; omega
    · simp at hcF ⊢; omega
  | terminal s idx stt err h hterm hfresh ih =>
    obtain ⟨htot, hnd, hc, hf, hact⟩ := ih
    obtain ⟨p, hp, hpc, hpf⟩ := hfresh
    have hcC := countStatus_updateProgress_some s.progress idx stt err
      p hp "completed"
    have hcF := countStatus_updateProgress_some s.progress idx stt err
      p hp "failed"
    simp only [BatchState.update_status]
    refine ⟨?_, ?_, ?_, ?_, hact⟩
    · simp [BatchState.length_updateProgress, htot]
    · simpa [BatchState.map_image_index_updateProgress] using hnd
    · rcases hterm with hT | hT <;>
        simp [hT, hpc, hpf] at hcC ⊢ <;> omega
    · rcases hterm with hT | hT <;>
        simp [hT, hpc, hpf] at hcF ⊢ <;> omega
  | addRes s r h ih =>
    obtain ⟨htot, hnd, hc, hf, hact⟩ := ih
    exact ⟨htot, hnd, hc, hf, hact⟩

theorem countStatus_terminal_le (ps : List ProgressItem) :
    countStatus ps "completed" + countStatus ps "failed" ≤ ps.length := by
  induction ps with
  | nil => simp [countStatus]
  | cons p rest ih =>
    rw [countStatus_cons, countStatus_cons]
    by_cases h1 : p.status = "completed"
    · have h2 : ¬ p.status = "failed" := by simp [h1]
      simp [h1, h2]
      omega
    · by_cases h2 : p.status = "failed" <;> simp [h1, h2] <;> omega

theorem countStatus_terminal_eq_iff (ps : List ProgressItem) :
    countStatus ps "completed" + countStatus ps "failed" = ps.length ↔
      ∀ p ∈ ps, p.status = "completed" ∨ p.status = "failed" := by
  induction ps with
  | nil => simp [countStatus]
  | cons p rest ih =>
    rw [countStatus_cons, countStatus_cons]
    have hle := countStatus_terminal_le rest
    simp only [List.mem_cons, forall_eq_or_imp, List.length_cons]
    by_cases h1 : p.status = "completed"
    · have h2 : ¬ p.status = "failed" := by simp [h1]
      simp [h1, h2]
      constructor
      · intro h; exact ih.mp (by omega)
      · intro h; have := ih.mpr h; omega
    · by_cases h2 : p.status = "failed"
      · simp [h1, h2]
        constructor
        · intro h; exact ih.mp (by omega)
        · intro h; have := ih.mpr h; omega
      · simp [h1, h2]
        intro h
        have := countStatus_terminal_le rest
        omega

/-- **C3, counterexample.**  The state `exMidState` — one admitted item
that has just resolved `completed`, before the teardown `mark_complete` —
is reachable by the orchestrator's operations, satisfies
`completed + failed = total`, yet still has `active = true`: equality of
the counters with the total does not coincide with the `active` flag
being lowered. -/
theorem batch_sum_eq_total_not_iff_inactive :
    ReachableOrch exMidState ∧
    ¬(exMidState.completed + exMidState.failed = exMidState.total ↔
        exMidState.active = false) := by
  constructor
  · left
    have h0 : MidRun (({} : BatchState).reset "batch_cex" 1 [0] ["img0.png"]) :=
      MidRun.start ({} : BatchState) "batch_cex" [0] ["img0.png"]
        (by decide) rfl
    have h1 : MidRun ((({} : BatchState).reset "batch_cex" 1 [0]
        ["img0.png"]).update_status 0 "queued" none) :=
      MidRun.queued _ 0 h0 rfl
    exact MidRun.terminal _ 0 "completed" none h1 (Or.inl rfl)
      ⟨{ image_index := 0, filename := "img0.png", status := "queued",
          error := none }, rfl, by decide, by decide⟩
  · decide

/-- **C3, amended.**  In every state reachable by the orchestrator's
operations on one admitted batch, `completed + failed ≤ total`, and
equality holds iff every item of the batch has reached a terminal
status.  (Equality does not coincide with `active = false`: the flag is
lowered only by the later `mark_complete` teardown, and that teardown
also runs — with the sum still short of `total` — when the fan-out loop
is aborted by an unexpected exception.) -/
theorem batch_counter_invariant_amended (s : BatchState)
    (h : ReachableOrch s) :
    s.completed + s.failed ≤ s.total ∧
    (s.completed + s.failed = s.total ↔ s.allTerminal) := by
  have key : ∀ t : BatchState, MidRun t →
      t.completed + t.failed ≤ t.total ∧
      (t.completed + t.failed = t.total ↔ t.allTerminal) := by
    intro t ht
    obtain ⟨htot, -, hc, hf, -⟩ := midRun_inv ht
    rw [hc, hf, htot]
    exact ⟨countStatus_terminal_le t.progress,
      countStatus_terminal_eq_iff t.progress⟩
  rcases h with h | ⟨t, ht, rfl⟩
  · exact key s h
  · have := key t ht
    simpa [BatchState.mark_complete, BatchState.allTerminal] using this

/-- **C3, witness** for `batch_counter_invariant_amended`, at the
reachable state `exMidState.mark_complete`. -/
theorem batch_counter_invariant_amended_witness :
    exMidState.mark_complete.completed + exMidState.mark_complete.failed ≤
        exMidState.mark_complete.total ∧
    (exMidState.mark_complete.completed + exMidState.mark_complete.failed =
        exMidState.mark_complete.total ↔ exMidState.mark_complete.allTerminal) := by
  refine batch_counter_invariant_amended exMidState.mark_complete
    (Or.inr ⟨exMidState, ?_, rfl⟩)
  have h0 : MidRun (({} : BatchState).reset "batch_cex" 1 [0] ["img0.png"]) :=
    MidRun.start ({} : BatchState) "batch_cex" [0] ["img0.png"]
      (by decide) rfl
  have h1 : MidRun ((({} : BatchState).reset "batch_cex" 1 [0]
      ["img0.png"]).update_status 0 "queued" none) :=
    MidRun.queued _ 0 h0 rfl
  exact MidRun.terminal _ 0 "completed" none h1 (Or.inl rfl)
    ⟨{ image_index := 0, filename := "img0.png", status := "queued",
        error := none }, rfl, by decide, by decide⟩

/-! ## Admission control (C1) -/

/-- **C1.**  While the batch state's `active` flag is raised, the
batch-submit handler returns the 409 admission conflict carrying the
in-progress batch's id and returns the server state unchanged — every
field of the existing batch state (`batch_id`, `active`, `progress`,
`results`, `total`, `completed`, `failed`) is untouched.  (The pipeline
library is taken as available: an active batch can only arise past that
startup guard, since the only `reset` call sits in this handler.) -/
theorem submit_while_active_conflict (g : Bool) (cpu : Nat) (newId : String)
    (st : ServerState) (req : SubmitRequest)
    (hactive : st.batch.active = true) :
    run_color_correction_parallel true g cpu newId st req =
      (.conflict st.batch.batch_id, st) := by
  simp [run_color_correction_parallel, BatchState.is_active, hactive]

/-- **C1, witness** for `submit_while_active_conflict`. -/
theorem submit_while_active_conflict_witness :
    run_color_correction_parallel true false 8 "batch_new" exActiveState
      { image_indices := [0] } =
    (.conflict exActiveState.batch.batch_id, exActiveState) :=
  submit_while_active_conflict false 8 "batch_new" exActiveState
    { image_indices := [0] } rfl

/-! ## Worker-pool sizing (C7, C10) -/

/-- **C7.**  The worker-sizing policy: with no override the GPU path
returns `min(2, itemCount)` and the CPU path returns
`min(max(1, floor(0.6·cpus)), itemCount)`; an override at the bulk-batch
call site lands in `[1, min(16, itemCount)]`; and the four spec examples
hold — `ComputeWorkers(1, false, None) = 1`,
`ComputeWorkers(100, true, None) = 2`,
`ComputeWorkers(3, false, 10) = 3` (capped by item count), and
`ComputeWorkers(1000, false, None) = 4` on an 8-CPU host. -/
theorem worker_policy_spec (n cpu : Nat) (o : Int) (g : Bool)
    (hn : 1 ≤ n) (hcpu : 1 ≤ cpu) :
    (calculate_optimal_workers n true cpu = min 2 n) ∧
    (calculate_optimal_workers n false cpu = min (max 1 (3 * cpu / 5)) n) ∧
    (1 ≤ bulk_worker_count (some o) n g cpu ∧
      bulk_worker_count (some o) n g cpu ≤ min 16 n) ∧
    calculate_optimal_workers 1 false cpu = 1 ∧
    calculate_optimal_workers 100 true cpu = 2 ∧
    bulk_worker_count (some 10) 3 g cpu = 3 ∧
    calculate_optimal_workers 1000 false 8 = 4 := by
  refine ⟨rfl, rfl, ⟨?_, ?_⟩, ?_, rfl, rfl, rfl⟩
  · simp only [bulk_worker_count]
    omega
  · simp only [bulk_worker_count]
    omega
  · simp [calculate_optimal_workers]

/-- **C7, witness** for `worker_policy_spec` at `n = 3`, `cpu = 8`,
`o = 10`, CPU-only host. -/
theorem worker_policy_spec_witness :
    (calculate_optimal_workers 3 true 8 = min 2 3) ∧
    (calculate_optimal_workers 3 false 8 = min (max 1 (3 * 8 / 5)) 3) ∧
    (1 ≤ bulk_worker_count (some 10) 3 false 8 ∧
      bulk_worker_count (some 10) 3 false 8 ≤ min 16 3) ∧
    calculate_optimal_workers 1 false 8 = 1 ∧
    calculate_optimal_workers 100 true 8 = 2 ∧
    bulk_worker_count (some 10) 3 false 8 = 3 ∧
    calculate_optimal_workers 1000 false 8 = 4 :=
  worker_policy_spec 3 8 10 false (by decide) (by decide)

/-- **C10.**  The inference-only apply endpoint, with no caller override,
auto-sizes its pool to `min(2, ComputeWorkers(n, hasGPU), n)`: the chosen
worker count never exceeds 2, for every item count, CPU count and GPU
availability, and is at least 1 whenever at least one image was
requested. -/
theorem apply_auto_workers_capped (n cpu : Nat) (g : Bool) (hn : 1 ≤ n) :
    apply_worker_count none n g cpu ≤ 2 ∧
    1 ≤ apply_worker_count none n g cpu := by
  constructor
  · exact Nat.min_le_left _ _
  · cases g <;> simp [apply_worker_count, calculate_optimal_workers] <;> omega

/-- **C10, witness** for `apply_auto_workers_capped` at 5 items on an
8-CPU GPU host. -/
theorem apply_auto_workers_capped_witness :
    apply_worker_count none 5 true 8 ≤ 2 ∧
    1 ≤ apply_worker_count none 5 true 8 :=
  apply_auto_workers_capped 5 8 true (by decide)

/-! ## Shutdown resource release (C5) -/

/-- **C5, counterexample.**  There is no one-shot guard around
`cleanup_upload_folder`: the API-triggered shutdown sequence alone runs
the release twice — once directly in `shutdown_server`, once more in the
`SIGINT` handler its background thread triggers — so the release is not
performed exactly once. -/
theorem shutdown_cleanup_runs_twice :
    (shutdown_server_sequence exWorld).cleanupRuns = 2 ∧
    (shutdown_server_sequence exWorld).cleanupRuns ≠ 1 :=
  ⟨rfl, by decide⟩

/-- **C5, amended.**  The shutdown paths are unguarded: the signal path
runs the folder release once, and the API path runs it twice (its own
call plus the `SIGINT` handler's).  Repetition is nevertheless harmless
to the released resources, because `cleanup_upload_folder` is idempotent
in effect: the three managed folders are empty after either path, and a
second run changes their contents no further. -/
theorem shutdown_cleanup_amended (w : ShutdownWorld) :
    ((signal_handler w).cleanupRuns = w.cleanupRuns + 1) ∧
    ((shutdown_server_sequence w).cleanupRuns = w.cleanupRuns + 2) ∧
    ((shutdown_server_sequence w).uploads = [] ∧
      (shutdown_server_sequence w).results = [] ∧
      (shutdown_server_sequence w).models = []) ∧
    ((cleanup_upload_folder (cleanup_upload_folder w)).uploads =
        (cleanup_upload_folder w).uploads ∧
      (cleanup_upload_folder (cleanup_upload_folder w)).results =
        (cleanup_upload_folder w).results ∧
      (cleanup_upload_folder (cleanup_upload_folder w)).models =
        (cleanup_upload_folder w).models) :=
  ⟨rfl, rfl, ⟨rfl, rfl, rfl⟩, rfl, rfl, rfl⟩

/-! ## Session reset (C8) -/

/-- **C8, counterexample.**  `clear_session` does not clear all registry
fields: on a session holding a trained model handle and modified `cc`
settings, the reset leaves both `cc_instance` and `settings` exactly as
they were — a previously trained model remains available for inference
after the reset. -/
theorem clear_session_keeps_trained_model :
    ((clear_session exTrainedState).2.session.cc_instance = some 7) ∧
    ((clear_session exTrainedState).2.session.settings =
        exTrainedSession.settings) ∧
    exTrainedSession.settings ≠ initialSessionData.settings ∧
    some 7 ≠ (none : Option Nat) := by
  refine ⟨rfl, rfl, ?_, by decide⟩
  intro h
  have h2 := congrArg
    (fun s => SDict.lookupKey (Settings.getStep s "cc") "degree") h
  have e1 : SDict.lookupKey
      (Settings.getStep exTrainedSession.settings "cc") "degree" =
      some (.n 9) := rfl
  have e2 : SDict.lookupKey
      (Settings.getStep initialSessionData.settings "cc") "degree" =
      some (.n 2) := rfl
  simp only [e1, e2] at h2
  exact absurd h2 (by decide)

/-- **C8, amended.**  `clear_session` empties the uploaded-image list,
the white-reference slot, the stored CCM file, the corrected images, the
chart detection, the last metrics, the batch-processed list and the
batch-mode flag — but it preserves the per-stage `settings` and the
trained-model handle `cc_instance`, so a previously trained model is
still available for inference afterwards. -/
theorem clear_session_amended (st : ServerState) :
    ((clear_session st).2.session.images = []) ∧
    ((clear_session st).2.session.white_image = none) ∧
    ((clear_session st).2.session.ccm_file = none) ∧
    ((clear_session st).2.session.corrected_images = []) ∧
    ((clear_session st).2.session.chart_detection = none) ∧
    ((clear_session st).2.session.last_metrics = none) ∧
    ((clear_session st).2.session.batch_processed_images = []) ∧
    ((clear_session st).2.session.is_batch_mode = false) ∧
    ((clear_session st).2.session.settings = st.session.settings) ∧
    ((clear_session st).2.session.cc_instance = st.session.cc_instance) :=
  ⟨rfl, rfl, rfl, rfl, rfl, rfl, rfl, rfl, rfl, rfl⟩

/-! ## Key-by-key settings merge (C9) -/

theorem SDict.dictUpdate_cons (d : SDict) (k₀ : String) (v₀ : SVal)
    (rest : SDict) :
    SDict.dictUpdate d ((k₀, v₀) :: rest) =
      SDict.dictUpdate (d.setKey k₀ v₀) rest := rfl

theorem SDict.lookupKey_setKey (d : SDict) (k k' : String) (v : SVal) :
    (d.setKey k v).lookupKey k' =
      if k = k' then some v else d.lookupKey k' := by
  induction d with
  | nil => by_cases h : k = k' <;> simp [SDict.setKey, SDict.lookupKey, h]
  | cons kv rest ih =>
    obtain ⟨k₀, v₀⟩ := kv
    by_cases h0 : k₀ = k
    · subst h0
      by_cases h : k₀ = k' <;> simp [SDict.setKey, SDict.lookupKey, h]
    · by_cases h : k₀ = k'
      · have hkk : ¬ k = k' := fun hh => h0 (h.trans hh.symm)
        have hkk2 : ¬ k' = k := fun hh => hkk hh.symm
        simp [SDict.setKey, SDict.lookupKey, h0, h, hkk, hkk2]
      · simp [SDict.setKey, SDict.lookupKey, h0, h, ih]

theorem SDict.lookupKey_eq_none_iff (u : SDict) (k : String) :
    u.lookupKey k = none ↔ k ∉ u.map Prod.fst := by
  induction u with
  | nil => simp [SDict.lookupKey]
  | cons kv rest ih =>
    obtain ⟨k₀, v₀⟩ := kv
    by_cases h0 : k₀ = k
    · simp [SDict.lookupKey, h0]
    · simp only [SDict.lookupKey, if_neg h0, ih, List.map_cons,
        List.mem_cons]
      constructor
      · rintro hmem (hk | hk)
        · exact h0 hk.symm
        · exact hmem hk
      · intro hmem hk
        exact hmem (Or.inr hk)

theorem SDict.lookupKey_dictUpdate_not_mem (u : SDict) (k : String)
    (h : u.lookupKey k = none) (d : SDict) :
    (d.dictUpdate u).lookupKey k = d.lookupKey k := by
  induction u generalizing d with
  | nil => rfl
  | cons kv rest ih =>
    obtain ⟨k₀, v₀⟩ := kv
    by_cases h0 : k₀ = k
    · simp [SDict.lookupKey, h0] at h
    · simp only [SDict.lookupKey, if_neg h0] at h
      rw [SDict.dictUpdate_cons, ih h, SDict.lookupKey_setKey, if_neg h0]

theorem SDict.lookupKey_dictUpdate_some (u : SDict) (k : String) (v : SVal)
    (hnd : (u.map Prod.fst).Nodup) (h : u.lookupKey k = some v)
    (d : SDict) :
    (d.dictUpdate u).lookupKey k = some v := by
  induction u generalizing d with
  | nil => simp [SDict.lookupKey] at h
  | cons kv rest ih =>
    obtain ⟨k₀, v₀⟩ := kv
    obtain ⟨hk₀, hnd'⟩ : k₀ ∉ rest.map Prod.fst ∧
        (rest.map Prod.fst).Nodup := by simpa using hnd
    rw [SDict.dictUpdate_cons]
    by_cases h0 : k₀ = k
    · subst h0
      have hv : v₀ = v := by simpa [SDict.lookupKey] using h
      subst hv
      have hnone : SDict.lookupKey rest k₀ = none :=
        (SDict.lookupKey_eq_none_iff rest k₀).mpr hk₀
      rw [SDict.lookupKey_dictUpdate_not_mem rest k₀ hnone,
        SDict.lookupKey_setKey, if_pos rfl]
    · simp only [SDict.lookupKey, if_neg h0] at h
      exact ih hnd' h _

/-- **C9.**  For every stage in `{ffc, gc, wb, cc}`, the settings-update
endpoint merges the partial update key-by-key into the existing stage
record: every key present in the update takes its new value, every key
absent from the update keeps its prior value, and no other stage's record
is touched — the record is never replaced wholesale. -/
theorem settings_update_merges (st : ServerState) (step other : String)
    (upd : SDict) (k : String) (v : SVal)
    (hstep : step ∈ ["ffc", "gc", "wb", "cc"])
    (hother : other ∈ ["ffc", "gc", "wb", "cc"]) (hne : other ≠ step)
    (hnd : (upd.map Prod.fst).Nodup) :
    (upd.lookupKey k = some v →
      (Settings.getStep
        (handle_settings_post st step (some upd)).2.session.settings
        step).lookupKey k = some v) ∧
    (upd.lookupKey k = none →
      (Settings.getStep
        (handle_settings_post st step (some upd)).2.session.settings
        step).lookupKey k =
        (Settings.getStep st.session.settings step).lookupKey k) ∧
    (Settings.getStep
        (handle_settings_post st step (some upd)).2.session.settings
        other = Settings.getStep st.session.settings other) := by
  have hpost : (handle_settings_post st step (some upd)).2.session.settings =
      st.session.settings.updateStep step upd := by
    simp [handle_settings_post, hstep]
  have hself : (st.session.settings.updateStep step upd).getStep step =
      (st.session.settings.getStep step).dictUpdate upd := by
    fin_cases hstep <;> simp [Settings.updateStep, Settings.getStep]
  have hoth : (st.session.settings.updateStep step upd).getStep other =
      st.session.settings.getStep other := by
    fin_cases hstep <;> fin_cases hother <;>
      first
        | exact absurd rfl hne
        | simp [Settings.updateStep, Settings.getStep]
  rw [hpost, hself, hoth]
  exact ⟨fun hm => SDict.lookupKey_dictUpdate_some upd k v hnd hm _,
    fun hm => SDict.lookupKey_dictUpdate_not_mem upd k hm _, rfl⟩

/-- **C9, witness** for `settings_update_merges`: merging
`{'degree': 5}` into the `cc` stage of a fresh session. -/
theorem settings_update_merges_witness :
    (SDict.lookupKey [("degree", SVal.n 5)] "degree" = some (SVal.n 5) →
      (Settings.getStep
        (handle_settings_post { batch := {}, session := initialSessionData }
          "cc" (some [("degree", SVal.n 5)])).2.session.settings
        "cc").lookupKey "degree" = some (SVal.n 5)) ∧
    (SDict.lookupKey [("degree", SVal.n 5)] "degree" = none →
      (Settings.getStep
        (handle_settings_post { batch := {}, session := initialSessionData }
          "cc" (some [("degree", SVal.n 5)])).2.session.settings
        "cc").lookupKey "degree" =
        (Settings.getStep initialSessionData.settings "cc").lookupKey
          "degree") ∧
    (Settings.getStep
        (handle_settings_post { batch := {}, session := initialSessionData }
          "cc" (some [("degree", SVal.n 5)])).2.session.settings
        "wb" = Settings.getStep initialSessionData.settings "wb") :=
  settings_update_merges { batch := {}, session := initialSessionData }
    "cc" "wb" [("degree", SVal.n 5)] "degree" (SVal.n 5)
    (by decide) (by decide) (by decide) (by decide)

/-! ## Snapshot aliasing in `get_status` (C6) -/

theorem findFirstRef_mem (store : ItemStore) (refs : List Nat) (idx a : Nat)
    (h : findFirstRef store refs idx = some a) : a ∈ refs := by
  induction refs with
  | nil => simp [findFirstRef] at h
  | cons r rest ih =>
    by_cases hr : (readRef store r).image_index = idx
    · simp only [findFirstRef, if_pos hr, Option.some.injEq] at h
      simp [h]
    · simp only [findFirstRef, if_neg hr] at h
      simp [ih h]

theorem readRef_set_ne (store : ItemStore) (a b : Nat) (x : ProgressItem)
    (h : a ≠ b) : readRef (store.set a x) b = readRef store b := by
  simp [readRef, List.getD_eq_getElem?_getD, List.getElem?_set_ne h]

theorem readRef_set_self (store : ItemStore) (a : Nat) (x : ProgressItem)
    (h : a < store.length) : readRef (store.set a x) a = x := by
  simp [readRef, List.getD_eq_getElem?_getD, List.getElem?_set_self, h]

theorem readRef_append_left (store l' : ItemStore) (a : Nat)
    (h : a < store.length) : readRef (store ++ l') a = readRef store a := by
  simp [readRef, List.getD_eq_getElem?_getD, List.getElem?_append_left h]

theorem readSnapshot_storeAfterUpdate (store : ItemStore) (refs : List Nat)
    (idx : Nat) (stt : String) (err : Option String)
    (hnd : refs.Nodup) (hrange : ∀ a ∈ refs, a < store.length) :
    refs.map (readRef (storeAfterUpdate store refs idx stt err)) =
      BatchState.updateProgress (refs.map (readRef store)) idx stt err := by
  induction refs with
  | nil => rfl
  | cons r rest ih =>
    obtain ⟨hr_not, hnd'⟩ : r ∉ rest ∧ rest.Nodup := by
      simpa using hnd
    have hrlt : r < store.length := hrange r (by simp)
    have hrange' : ∀ a ∈ rest, a < store.length :=
      fun a ha => hrange a (by simp [ha])
    by_cases hr : (readRef store r).image_index = idx
    · have hfr : findFirstRef store (r :: rest) idx = some r := by
        simp [findFirstRef, hr]
      simp only [storeAfterUpdate, hfr]
      rw [List.map_cons, List.map_cons, BatchState.updateProgress]
      rw [if_pos hr, readRef_set_self store r _ hrlt]
      congr 1
      exact List.map_congr_left fun b hb =>
        readRef_set_ne store r b _ (fun hrb => hr_not (hrb ▸ hb))
    · have hfr : findFirstRef store (r :: rest) idx =
          findFirstRef store rest idx := by
        simp [findFirstRef, hr]
      have hsame : storeAfterUpdate store (r :: rest) idx stt err =
          storeAfterUpdate store rest idx stt err := by
        rw [storeAfterUpdate, storeAfterUpdate, hfr]
      rw [List.map_cons, List.map_cons, BatchState.updateProgress, if_neg hr]
      rw [hsame]
      congr 1
      · cases hfind : findFirstRef store rest idx with
        | none => rw [storeAfterUpdate, hfind]
        | some a'' =>
          have ha'' : a'' ∈ rest := findFirstRef_mem store rest idx a'' hfind
          have hne : a'' ≠ r := fun h => hr_not (h ▸ ha'')
          rw [storeAfterUpdate, hfind]
          exact readRef_set_ne store a'' r _ hne
      · exact ih hnd' hrange'

/-- **C6, counterexample.**  The snapshot returned by `get_status` is not
a deep copy: on a one-item batch, a later `update_status` that mutates
the item record changes what a previously returned snapshot displays —
the snapshot shares the per-item records with the live state. -/
theorem snapshot_shares_item_records :
    readSnapshot (exHeapBatch.update_status 0 "completed" none).store
        exHeapBatch.get_status ≠
      readSnapshot exHeapBatch.store exHeapBatch.get_status := by
  decide

/-- **C6, amended.**  `get_status` is a point-in-time copy only of the
scalar fields and of the list structure: its scalars are the values at
snapshot time, and `reset` — which rebinds `progress` to freshly
allocated records — leaves the reading of an old snapshot unchanged.
The per-item records, however, are shared by reference: reading a
previously returned snapshot after an `update_status` shows exactly the
item-wise mutation applied to what the snapshot displayed before. -/
theorem get_status_snapshot_amended (b : HBatchState) (idx : Nat)
    (stt bid : String) (err : Option String) (tot : Nat)
    (idxs : List Nat) (fns : List String) (hwf : b.WF) :
    (b.get_status.batch_id = b.batch_id ∧
     b.get_status.active = b.active ∧
     b.get_status.total = b.total ∧
     b.get_status.completed = b.completed ∧
     b.get_status.failed = b.failed) ∧
    readSnapshot (b.reset bid tot idxs fns).store b.get_status =
      readSnapshot b.store b.get_status ∧
    readSnapshot (b.update_status idx stt err).store b.get_status =
      BatchState.updateProgress (readSnapshot b.store b.get_status)
        idx stt err := by
  obtain ⟨hnd, hrange⟩ := hwf
  refine ⟨⟨rfl, rfl, rfl, rfl, rfl⟩, ?_, ?_⟩
  · exact List.map_congr_left fun a ha =>
      readRef_append_left b.store _ a (hrange a ha)
  · exact readSnapshot_storeAfterUpdate b.store b.progressRefs idx stt err
      hnd hrange

/-- **C6, witness** for `get_status_snapshot_amended` on the one-item
heap batch `exHeapBatch`. -/
theorem get_status_snapshot_amended_witness :
    (exHeapBatch.get_status.batch_id = exHeapBatch.batch_id ∧
     exHeapBatch.get_status.active = exHeapBatch.active ∧
     exHeapBatch.get_status.total = exHeapBatch.total ∧
     exHeapBatch.get_status.completed = exHeapBatch.completed ∧
     exHeapBatch.get_status.failed = exHeapBatch.failed) ∧
    readSnapshot (exHeapBatch.reset "batch_next" 1 [3] ["c.png"]).store
        exHeapBatch.get_status =
      readSnapshot exHeapBatch.store exHeapBatch.get_status ∧
    readSnapshot (exHeapBatch.update_status 0 "completed" none).store
        exHeapBatch.get_status =
      BatchState.updateProgress
        (readSnapshot exHeapBatch.store exHeapBatch.get_status)
        0 "completed" none :=
  get_status_snapshot_amended exHeapBatch 0 "completed" "batch_next" none 1
    [3] ["c.png"] ⟨by decide, by decide⟩

/-! ## The unenforced per-item timeout (C4) -/

theorem timeoutErrorMsg_ne_load (t : Nat) (fname path : String) :
    timeoutErrorMsg t ≠ loadErrorMsg fname path := by
  intro h
  have h2 := congrArg (fun s => s.data.head?) h
  simp [timeoutErrorMsg, loadErrorMsg, String.data_append] at h2

theorem timeoutErrorMsg_ne_pipeline (t : Nat) (m : String) :
    timeoutErrorMsg t ≠ pipelineErrorMsg m := by
  intro h
  have h2 := congrArg (fun s => (s.data.drop 1).head?) h
  simp [timeoutErrorMsg, pipelineErrorMsg, String.data_append] at h2

theorem timeoutErrorMsg_ne_unknown (t : Nat) :
    timeoutErrorMsg t ≠ "Unknown error" := by
  intro h
  have h2 := congrArg (fun s => s.data.head?) h
  simp [timeoutErrorMsg, String.data_append] at h2

theorem statusOf_update_ne (s : BatchState) (idx j : Nat) (stt : String)
    (err : Option String) (h : j ≠ idx) :
    (s.update_status idx stt err).statusOf j = s.statusOf j := by
  simp [BatchState.statusOf, BatchState.update_status,
    BatchState.findFirst_updateProgress_ne _ _ _ _ _ h]

theorem errorOf_update_ne (s : BatchState) (idx j : Nat) (stt : String)
    (err : Option String) (h : j ≠ idx) :
    (s.update_status idx stt err).errorOf j = s.errorOf j := by
  simp [BatchState.errorOf, BatchState.update_status,
    BatchState.findFirst_updateProgress_ne _ _ _ _ _ h]

theorem handleCompletion_preserves (t : Nat) (st : OrchState)
    (c : Nat × FutureOutcome) (k : Nat) (h : k ≠ c.1) :
    ((handleCompletion t st c).batch.statusOf k = st.batch.statusOf k) ∧
    ((handleCompletion t st c).batch.errorOf k = st.batch.errorOf k) := by
  obtain ⟨i, o⟩ := c
  cases o with
  | ok r =>
    by_cases hr : r.success <;>
      simp [handleCompletion, hr, BatchState.add_result, BatchState.statusOf,
        BatchState.errorOf, BatchState.update_status,
        BatchState.findFirst_updateProgress_ne _ _ _ _ _ h]
  | timeout =>
    simp [handleCompletion, BatchState.statusOf, BatchState.errorOf,
      BatchState.update_status,
      BatchState.findFirst_updateProgress_ne _ _ _ _ _ h]
  | exn m =>
    simp [handleCompletion, BatchState.statusOf, BatchState.errorOf,
      BatchState.update_status,
      BatchState.findFirst_updateProgress_ne _ _ _ _ _ h]

theorem fanIn_preserves_not_mem (t : Nat) (cs : List (Nat × FutureOutcome))
    (k : Nat) (h : k ∉ cs.map Prod.fst) (st : OrchState) :
    ((fanIn t st cs).batch.statusOf k = st.batch.statusOf k) ∧
    ((fanIn t st cs).batch.errorOf k = st.batch.errorOf k) := by
  induction cs generalizing st with
  | nil => exact ⟨rfl, rfl⟩
  | cons c rest ih =>
    simp only [List.map_cons, List.mem_cons] at h
    push_neg at h
    obtain ⟨h1, h2⟩ := h
    have hstep := handleCompletion_preserves t st c k h1
    have hrest := ih h2 (handleCompletion t st c)
    exact ⟨hrest.1.trans hstep.1, hrest.2.trans hstep.2⟩

theorem fanIn_ok_records_worker_error (t : Nat)
    (cs : List (Nat × FutureOutcome)) (i : Nat) (r : ItemResult)
    (hnd : (cs.map Prod.fst).Nodup)
    (hmem : (i, FutureOutcome.ok r) ∈ cs) (st : OrchState)
    (hi : st.batch.errorOf i = some none) :
    (fanIn t st cs).batch.errorOf i = some none ∨
    (fanIn t st cs).batch.errorOf i =
      some (some (r.error.getD "Unknown error")) := by
  induction cs generalizing st with
  | nil => simp at hmem
  | cons c rest ih =>
    obtain ⟨hc1, hndr⟩ : c.1 ∉ rest.map Prod.fst ∧
        (rest.map Prod.fst).Nodup := by simpa using hnd
    rcases List.mem_cons.mp hmem with hc | hc
    · obtain ⟨p, hp, hpe⟩ : ∃ p, BatchState.findFirst st.batch.progress i =
          some p ∧ p.error = none := by
        cases hfp : BatchState.findFirst st.batch.progress i with
        | none =>
          rw [BatchState.errorOf, hfp] at hi
          simp at hi
        | some p =>
          rw [BatchState.errorOf, hfp] at hi
          simp at hi
          exact ⟨p, rfl, hi⟩
      subst hc
      have hpres := fanIn_preserves_not_mem t rest i
        (by simpa using hc1) (handleCompletion t st (i, .ok r))
      by_cases hrs : r.success
      · left
        refine hpres.2.trans ?_
        simp [handleCompletion, hrs, BatchState.add_result,
          BatchState.errorOf, BatchState.update_status,
          BatchState.findFirst_updateProgress_self, hp,
          BatchState.mergeError, hpe]
      · by_cases hre : r.error.getD "Unknown error" = ""
        · left
          refine hpres.2.trans ?_
          simp [handleCompletion, hrs, BatchState.errorOf,
            BatchState.update_status,
            BatchState.findFirst_updateProgress_self, hp,
            BatchState.mergeError, hre, hpe]
        · right
          refine hpres.2.trans ?_
          simp [handleCompletion, hrs, BatchState.errorOf,
            BatchState.update_status,
            BatchState.findFirst_updateProgress_self, hp,
            BatchState.mergeError, hre]
    · have hne : i ≠ c.1 := by
        intro h
        exact hc1 (h ▸ List.mem_map.mpr ⟨(i, .ok r), hc, rfl⟩)
      have hstep := handleCompletion_preserves t st c i hne
      have hi' : (handleCompletion t st c).batch.errorOf i = some none := by
        rw [hstep.2]; exact hi
      exact ih hndr hc (handleCompletion t st c) hi'

/-- **C4, code bug.**  The configured timeout is unenforced in the code:
the item executor accepts a `timeout` argument and never reads it (its
result is identical for every value), and the fan-in loop's
`future.result(timeout=...)` is called only on futures already completed
— `as_completed(futures)` is invoked with no timeout argument — so its
`FutureTimeoutError` branch is dead: the timeout outcome is not
realizable.  For an item whose execution exceeds the configured bound
and whose worker finally returns, the loop records the worker's own late
result: over every completion sequence of realizable outcomes, the
item's recorded failure reason is never the timeout message.  The
timeout elapsing is therefore not observable in any recorded failure
reason, contrary to the claim and to the spec's stated intent. -/
theorem timeout_unenforced (t t' : Nat) (st : OrchState)
    (cs : List (Nat × FutureOutcome)) (i : Nat) (path fname : String)
    (b : PipelineBehavior)
    (hreal : ∀ c ∈ cs, FutureOutcome.realizable c.2)
    (hnd : (cs.map Prod.fst).Nodup)
    (hmem : (i, FutureOutcome.ok
        (process_single_image_with_timeout i path fname b t)) ∈ cs)
    (hi : st.batch.errorOf i = some none) :
    (process_single_image_with_timeout i path fname b t =
      process_single_image_with_timeout i path fname b t') ∧
    ((i, FutureOutcome.timeout) ∉ cs) ∧
    (fanIn t st cs).batch.errorOf i ≠
      some (some (timeoutErrorMsg t)) := by
  refine ⟨rfl, ?_, ?_⟩
  · intro hmem'
    exact hreal (i, FutureOutcome.timeout) hmem' rfl
  · have hcase := fanIn_ok_records_worker_error t cs i
      (process_single_image_with_timeout i path fname b t) hnd hmem st hi
    rcases hcase with h | h
    · rw [h]
      intro hcontra
      simp at hcontra
    · rw [h]
      intro hcontra
      have hmsg := Option.some.inj (Option.some.inj hcontra)
      cases b with
      | loadFails =>
        simp only [process_single_image_with_timeout, Option.getD_some]
          at hmsg
        exact timeoutErrorMsg_ne_load t fname path hmsg.symm
      | pipelineRaises m =>
        simp only [process_single_image_with_timeout, Option.getD_some]
          at hmsg
        exact timeoutErrorMsg_ne_pipeline t m hmsg.symm
      | returns imgs =>
        simp only [process_single_image_with_timeout, Option.getD_none]
          at hmsg
        exact timeoutErrorMsg_ne_unknown t hmsg.symm

/-- **C4, witness** for `timeout_unenforced`: a two-item batch whose
item 0 returns late (its future completes with the worker's own
load-failure result) and item 1 succeeds. -/
theorem timeout_unenforced_witness :
    (process_single_image_with_timeout 0 "uploads/a.png" "a.png"
        PipelineBehavior.loadFails defaultRequestTimeout =
      process_single_image_with_timeout 0 "uploads/a.png" "a.png"
        PipelineBehavior.loadFails 999) ∧
    ((0, FutureOutcome.timeout) ∉
      [(0, FutureOutcome.ok (process_single_image_with_timeout 0
          "uploads/a.png" "a.png" PipelineBehavior.loadFails
          defaultRequestTimeout)),
        (1, FutureOutcome.ok exOkResult)]) ∧
    (fanIn defaultRequestTimeout exOrchState
        [(0, FutureOutcome.ok (process_single_image_with_timeout 0
            "uploads/a.png" "a.png" PipelineBehavior.loadFails
            defaultRequestTimeout)),
          (1, FutureOutcome.ok exOkResult)]).batch.errorOf 0 ≠
      some (some (timeoutErrorMsg defaultRequestTimeout)) :=
  timeout_unenforced defaultRequestTimeout 999 exOrchState
    [(0, FutureOutcome.ok (process_single_image_with_timeout 0
        "uploads/a.png" "a.png" PipelineBehavior.loadFails
        defaultRequestTimeout)),
      (1, FutureOutcome.ok exOkResult)]
    0 "uploads/a.png" "a.png" PipelineBehavior.loadFails
    (by decide) (by decide) (List.mem_cons_self _ _) rfl

end CCStudio
